import Mathlib

/-!
Verification of the four-stage data pipeline (ingestion, cleaning, analysis,
visualization) of the Data-Visualization-SDG repository, as a shallow
embedding in Lean.  Cell values of the source tables are JSON scalars
(strings, integers, null); pandas missing values (None/NaN) are embedded as
an explicit `vmissing` constructor.  Numeric columns after `pd.to_numeric`
coercion are lists of `Option ℚ` (NaN = `none`).
-/

namespace DataVizSDG

/-- A raw cell value as it arrives from the JSON sources and is stored in a
raw document: a string, an integer, or missing (JSON null / pandas NaN). -/
inductive RawVal where
  | vstr (s : String)
  | vint (n : Int)
  | vmissing
deriving DecidableEq, Repr

/-- Python `str(v)` on a non-missing scalar cell value. -/
def pyStr : RawVal → String
  | RawVal.vstr s => s
  | RawVal.vint n => toString n
  | RawVal.vmissing => "None"

/-- Python truthiness of a scalar value (`if sample_val:` in
`2_data_cleaning.py` line 92): empty string and zero are falsy, `None`
is falsy. -/
def pyTruthy : RawVal → Bool
  | RawVal.vstr s => s ≠ ""
  | RawVal.vint n => n ≠ 0
  | RawVal.vmissing => false

/-- `str(sample_val).replace('.', '').replace('-', '')` from
`2_data_cleaning.py` line 93: remove every '.' and '-' character. -/
def stripDotsDashes (s : String) : String :=
  String.mk (s.data.filter (fun c => c ≠ '.' && c ≠ '-'))

/-- Python `str.isdigit` restricted to ASCII: true iff the string is
nonempty and every character is a decimal digit. -/
def pyIsDigit (s : String) : Bool :=
  !s.data.isEmpty && s.data.all Char.isDigit

/-- `df[col].dropna().iloc[0]`: the first non-missing value of a column,
`none` when the column is entirely missing. -/
def firstNonMissing (vals : List RawVal) : Option RawVal :=
  vals.find? (fun v => v ≠ RawVal.vmissing)

/-- The numeric-conversion guard of the EV cleaning loop
(`2_data_cleaning.py` lines 87-97): there is a first non-missing value, it
is truthy (Python `if sample_val and isinstance(...)`), and its string
form with '.' and '-' stripped is all digits. -/
def shouldConvert (vals : List RawVal) : Bool :=
  match firstNonMissing vals with
  | none => false
  | some v => pyTruthy v && pyIsDigit (stripDotsDashes (pyStr v))

/-- The spec's wording of the type-inference rule, for comparison with
`shouldConvert`: "a column is treated as numeric if its first non-missing
value's string form, after stripping `.` and `-`, is all-digit" — with no
truthiness condition. -/
def specNumericTest (vals : List RawVal) : Bool :=
  match firstNonMissing vals with
  | none => false
  | some v => pyIsDigit (stripDotsDashes (pyStr v))

/-- Numeric value of a list of decimal digit characters (most significant
first). -/
def digitsVal (ds : List Char) : ℕ :=
  ds.foldl (fun a c => 10 * a + (c.toNat - 48)) 0

/-- Split an optional leading sign from a character list; `true` means
negative. -/
def splitSign : List Char → Bool × List Char
  | '-' :: rest => (true, rest)
  | '+' :: rest => (false, rest)
  | cs => (false, cs)

/-- Parse an unsigned decimal literal `digits[.digits]` (at least one digit
overall), the decimal forms occurring in these datasets. -/
def parseUnsigned (cs : List Char) : Option ℚ :=
  let intPart := cs.takeWhile Char.isDigit
  let rest := cs.dropWhile Char.isDigit
  match rest with
  | [] => if intPart.isEmpty then none else some (digitsVal intPart)
  | '.' :: fracPart =>
      if fracPart.all Char.isDigit && (!intPart.isEmpty || !fracPart.isEmpty) then
        some ((digitsVal intPart : ℚ) + (digitsVal fracPart : ℚ) / (10 : ℚ) ^ fracPart.length)
      else none
  | _ => none

/-- Model of float conversion of a string by `pd.to_numeric(..., errors=
'coerce')`: optional sign followed by a plain decimal literal; anything
else (such as "5-5" or "N/A") fails and becomes missing. -/
def parsePyFloat (s : String) : Option ℚ :=
  let (neg, rest) := splitSign s.data
  (parseUnsigned rest).map (fun q => if neg then -q else q)

/-- `pd.to_numeric(value, errors='coerce')` on one cell: integers pass
through, strings are parsed as decimals, missing stays missing, parse
failures coerce to missing (NaN). -/
def parseNumeric : RawVal → Option ℚ
  | RawVal.vstr s => parsePyFloat s
  | RawVal.vint n => some (n : ℚ)
  | RawVal.vmissing => none

/-- Coerce a whole column with `pd.to_numeric(..., errors='coerce')`. -/
def toNumericCol (vals : List RawVal) : List (Option ℚ) :=
  vals.map parseNumeric

/-- pandas `Series.median()` of the non-missing values: sort, take the
middle element (odd count) or the mean of the two middle elements (even
count); the median of an empty series is NaN, embedded as `none`. -/
def medianQ (l : List ℚ) : Option ℚ :=
  let s := l.insertionSort (· ≤ ·)
  if s.length = 0 then none
  else if s.length % 2 = 1 then some (s.getD (s.length / 2) 0)
  else some ((s.getD (s.length / 2 - 1) 0 + s.getD (s.length / 2) 0) / 2)

/-- Median of a coerced numeric column, over its non-missing entries. -/
def colMedian (vals : List (Option ℚ)) : Option ℚ :=
  medianQ (vals.filterMap id)

/-- `df[col].fillna(df[col].median(), inplace=True)` on a numeric column
(`2_data_cleaning.py` lines 106-108 and 207-209): when every entry is
missing the median is NaN and the fill is a no-op, otherwise each missing
entry becomes the median. -/
def fillNumeric (vals : List (Option ℚ)) : List (Option ℚ) :=
  match colMedian vals with
  | none => vals
  | some m => vals.map (fun o => some (o.getD m))

/-- A column of a cleaned data frame: numeric dtype (`float64` after
coercion) or object dtype (left as raw values). -/
inductive CleanCol where
  | numeric (vals : List (Option ℚ))
  | object (vals : List RawVal)
deriving DecidableEq, Repr

/-- Step 5 of EV cleaning: coerce the column to numeric when the
single-sample heuristic `shouldConvert` fires, otherwise leave it as is. -/
def convertColumn (vals : List RawVal) : CleanCol :=
  if shouldConvert vals then CleanCol.numeric (toNumericCol vals)
  else CleanCol.object vals

/-- Step 6 of cleaning (identical loops at lines 103-111 and 204-212):
numeric columns are filled with their median, object columns with the
literal string "Unknown".  (The source guards with `missing_count > 0`;
when there is nothing to fill both branches leave the column unchanged,
so the guard is behaviorally irrelevant.) -/
def fillColumn : CleanCol → CleanCol
  | CleanCol.numeric vals => CleanCol.numeric (fillNumeric vals)
  | CleanCol.object vals =>
      CleanCol.object (vals.map (fun v => if v = RawVal.vmissing then RawVal.vstr "Unknown" else v))

/-- The cleaning pipeline on one EV column: type conversion then
missing-value fill. -/
def cleanColumn (vals : List RawVal) : CleanCol :=
  fillColumn (convertColumn vals)

/-- `df[col].isnull().sum() > 0` on a cleaned column. -/
def hasMissing : CleanCol → Bool
  | CleanCol.numeric vals => vals.any (fun o => o.isNone)
  | CleanCol.object vals => vals.any (fun v => v = RawVal.vmissing)

/-- The spec's wording of `shouldConvert` requires additionally that the
sampled first value be truthy; this definition isolates that extra
condition. -/
def firstValTruthy (vals : List RawVal) : Bool :=
  ((firstNonMissing vals).map pyTruthy).getD false

lemma medianQ_ne_none (l : List ℚ) (h : l ≠ []) : medianQ l ≠ none := by
  have hl : (l.insertionSort (· ≤ ·)).length ≠ 0 := by
    simpa [List.length_insertionSort, List.length_eq_zero] using h
  unfold medianQ
  simp only [hl, if_false]
  split <;> simp

lemma colMedian_ne_none (vals : List (Option ℚ)) (x : ℚ) (hx : some x ∈ vals) :
    colMedian vals ≠ none := by
  apply medianQ_ne_none
  intro hemp
  have : x ∈ vals.filterMap id := by
    simp only [List.mem_filterMap, id]
    exact ⟨some x, hx, rfl⟩
  rw [hemp] at this
  exact absurd this (List.not_mem_nil x)

/-- C1: the claim as stated — after the cleaning stage's fill loop, no
column of the cleaned table retains a missing value, for every input
column.  This is FALSE: refuted by `cleanColumn_missing_cex` below. -/
theorem cleanColumn_missing_cex :
    hasMissing (cleanColumn [RawVal.vstr "5-5"]) = true := by decide

/-- C1 (amended): after cleaning, zero missing values remain in every
column, except a column coerced to numeric whose coerced values are all
missing — there the column median is NaN and `fillna(median)` is a no-op.
Equivalently: the fill is complete for every column that is left as
object dtype or retains at least one value that coerces to a number. -/
theorem cleanColumn_no_missing (vals : List RawVal)
    (h : shouldConvert vals = false ∨ ∃ v ∈ vals, (parseNumeric v).isSome) :
    hasMissing (cleanColumn vals) = false := by
  by_cases hc : shouldConvert vals = true
  · have hex : ∃ v ∈ vals, (parseNumeric v).isSome := by
      rcases h with h | h
      · rw [hc] at h; exact absurd h (by simp)
      · exact h
    rcases hex with ⟨v, hv, hsome⟩
    rcases Option.isSome_iff_exists.1 hsome with ⟨x, hx⟩
    have hmem : some x ∈ toNumericCol vals := by
      simp only [toNumericCol, List.mem_map]
      exact ⟨v, hv, hx⟩
    have hmed := colMedian_ne_none (toNumericCol vals) x hmem
    rcases Option.ne_none_iff_exists.1 hmed with ⟨m, hm⟩
    simp only [cleanColumn, convertColumn, hc, if_true, fillColumn, fillNumeric, ← hm]
    simp [hasMissing, List.any_map, Function.comp]
  · have hc' : shouldConvert vals = false := by
      cases hval : shouldConvert vals
      · rfl
      · exact absurd hval hc
    simp only [cleanColumn, convertColumn, hc', Bool.false_eq_true, if_false, fillColumn]
    simp only [hasMissing, List.any_map, Function.comp, List.any_eq_false]
    intro v hv
    split <;> simp_all

/-- C1 amended witness: a numeric-coerced column with one parseable value
and one missing value comes out of cleaning with no missing entry. -/
theorem cleanColumn_no_missing_witness :
    hasMissing (cleanColumn [RawVal.vstr "2", RawVal.vmissing]) = false :=
  cleanColumn_no_missing [RawVal.vstr "2", RawVal.vmissing]
    (Or.inr ⟨RawVal.vstr "2", by decide, by decide⟩)

/-- C2: the claim as stated — a column is coerced to numeric if and only
if its first non-missing value's string form, stripped of '.' and '-', is
all-digit.  This is FALSE: a column whose first non-missing value is the
integer 0 passes the all-digit test (`str(0) = "0"`) yet is skipped by
the code, because the guard `if sample_val and isinstance(...)` tests
Python truthiness and 0 is falsy. -/
theorem shouldConvert_cex :
    specNumericTest [RawVal.vint 0] = true ∧ shouldConvert [RawVal.vint 0] = false := by
  decide

/-- C2 (amended): in the EV cleaning loop a column is coerced to numeric
if and only if its first non-missing value is truthy (nonzero number,
nonempty string) AND its string form stripped of '.' and '-' is
all-digit. -/
theorem shouldConvert_eq_truthy_and_digit (vals : List RawVal) :
    shouldConvert vals = (firstValTruthy vals && specNumericTest vals) := by
  unfold shouldConvert specNumericTest firstValTruthy
  cases h : firstNonMissing vals <;> simp

/-- Elementwise pandas subtraction of two float series entries: NaN in
either operand propagates to NaN. -/
def subNaN (a b : Option ℚ) : Option ℚ :=
  match a, b with
  | some x, some y => some (x - y)
  | _, _ => none

/-- The nutrition pipeline on the two confidence-limit columns
(`2_data_cleaning.py` lines 184-229): both columns are in the fixed
`numeric_cols` list so they are coerced unconditionally, then the fill
loop imputes each column's median, and only afterwards
`confidence_interval_width = high_confidence_limit - low_confidence_limit`
is derived row by row. -/
def confidenceWidth (low high : List RawVal) : List (Option ℚ) :=
  List.zipWith subNaN (fillNumeric (toNumericCol high)) (fillNumeric (toNumericCol low))

lemma fillNumeric_length (v : List (Option ℚ)) : (fillNumeric v).length = v.length := by
  unfold fillNumeric
  cases colMedian v <;> simp

lemma toNumericCol_length (vals : List RawVal) : (toNumericCol vals).length = vals.length := by
  simp [toNumericCol]

lemma toNumericCol_getD (vals : List RawVal) (i : ℕ) (hi : i < vals.length) :
    (toNumericCol vals).getD i none = parseNumeric (vals.getD i RawVal.vmissing) := by
  rw [List.getD_eq_getElem _ _ (by simpa [toNumericCol_length] using hi),
    List.getD_eq_getElem _ _ hi]
  simp [toNumericCol]

lemma fillNumeric_getD_some (v : List (Option ℚ)) (i : ℕ) (x : ℚ)
    (hx : v.getD i none = some x) : (fillNumeric v).getD i none = some x := by
  have hi : i < v.length := by
    by_contra hcon
    rw [List.getD_eq_default _ _ (le_of_not_lt hcon)] at hx
    exact Option.noConfusion hx
  unfold fillNumeric
  cases hm : colMedian v
  · exact hx
  · rw [List.getD_eq_getElem _ _ (by simpa using hi), List.getElem_map,
      ← List.getD_eq_getElem _ none hi, hx]
    rfl

lemma fillNumeric_getD_median (v : List (Option ℚ)) (i : ℕ) (m : ℚ)
    (hi : i < v.length) (hm : colMedian v = some m) :
    (fillNumeric v).getD i none = some ((v.getD i none).getD m) := by
  unfold fillNumeric
  rw [hm, List.getD_eq_getElem _ _ (by simpa using hi), List.getElem_map,
    ← List.getD_eq_getElem _ none hi]

lemma confidenceWidth_getD (low high : List RawVal) (i : ℕ)
    (hlow : i < low.length) (hhigh : i < high.length) :
    (confidenceWidth low high).getD i none =
      subNaN ((fillNumeric (toNumericCol high)).getD i none)
        ((fillNumeric (toNumericCol low)).getD i none) := by
  have hl : i < (fillNumeric (toNumericCol low)).length := by
    simpa [fillNumeric_length, toNumericCol_length] using hlow
  have hh : i < (fillNumeric (toNumericCol high)).length := by
    simpa [fillNumeric_length, toNumericCol_length] using hhigh
  simp only [confidenceWidth]
  rw [List.getD_eq_getElem _ _ (by simp [List.length_zipWith]; omega)]
  rw [List.getElem_zipWith, List.getD_eq_getElem _ none hl,
    List.getD_eq_getElem _ none hh]

/-- C4: for every nutrition record whose low and high confidence limits
are both non-missing in the raw data (i.e. both coerce to numbers), the
derived `confidence_interval_width` is exactly `high - low`; the formula
has no guard, so a negative width (high < low) is produced as-is. -/
theorem confidenceWidth_exact (low high : List RawVal) (i : ℕ) (l h : ℚ)
    (hl : parseNumeric (low.getD i RawVal.vmissing) = some l)
    (hh : parseNumeric (high.getD i RawVal.vmissing) = some h) :
    (confidenceWidth low high).getD i none = some (h - l) := by
  have hlow : i < low.length := by
    by_contra hcon
    rw [List.getD_eq_default _ _ (le_of_not_lt hcon)] at hl
    simp [parseNumeric] at hl
  have hhigh : i < high.length := by
    by_contra hcon
    rw [List.getD_eq_default _ _ (le_of_not_lt hcon)] at hh
    simp [parseNumeric] at hh
  rw [confidenceWidth_getD low high i hlow hhigh,
    fillNumeric_getD_some _ _ h (by rw [toNumericCol_getD high i hhigh]; exact hh),
    fillNumeric_getD_some _ _ l (by rw [toNumericCol_getD low i hlow]; exact hl)]
  rfl

/-- C4 witness: a record with low = "3" and high = "1" gets width
`1 - 3`, which is negative and stored unflagged. -/
theorem confidenceWidth_exact_witness :
    (confidenceWidth [RawVal.vstr "3"] [RawVal.vstr "1"]).getD 0 none = some (1 - 3) ∧
      ((1 : ℚ) - 3 < 0) :=
  ⟨confidenceWidth_exact [RawVal.vstr "3"] [RawVal.vstr "1"] 0 3 1 (by decide) (by decide),
    by norm_num⟩

/-- C9: the claim as stated — every record with a missing confidence
limit gets its width computed from the imputed median rather than being
left missing.  This is FALSE when a confidence-limit column has no
coercible value at all: its median is NaN, the fill is a no-op, and the
width of the affected records stays missing, as this collection whose
only low limit is the unparseable "x" shows. -/
theorem confidenceWidth_imputed_cex :
    parseNumeric (([RawVal.vstr "x"] : List RawVal).getD 0 RawVal.vmissing) = none ∧
      (confidenceWidth [RawVal.vstr "x"] [RawVal.vstr "7"]).getD 0 none = none := by
  decide

/-- C9 (amended): the fill loop runs before the derivation of
`confidence_interval_width`, so provided each of the two confidence-limit
columns has at least one coercible value (its median exists), EVERY
record's width is the non-missing value
`(high or imputed median of high) - (low or imputed median of low)` —
in particular a record whose low limit, high limit, or both were missing
or uncoercible in the raw data gets a width computed from the imputed
median(s) rather than being left missing. -/
theorem confidenceWidth_imputed (low high : List RawVal) (i : ℕ) (mL mH : ℚ)
    (hi : i < low.length) (hlen : low.length = high.length)
    (hmL : colMedian (toNumericCol low) = some mL)
    (hmH : colMedian (toNumericCol high) = some mH) :
    (confidenceWidth low high).getD i none =
      some ((parseNumeric (high.getD i RawVal.vmissing)).getD mH -
        (parseNumeric (low.getD i RawVal.vmissing)).getD mL) := by
  have hhigh : i < high.length := hlen ▸ hi
  rw [confidenceWidth_getD low high i hi hhigh,
    fillNumeric_getD_median _ _ mH (by simpa [toNumericCol_length] using hhigh) hmH,
    fillNumeric_getD_median _ _ mL (by simpa [toNumericCol_length] using hi) hmL,
    toNumericCol_getD low i hi, toNumericCol_getD high i hhigh]
  rfl

/-- C9 witness: a collection whose row 0 has BOTH limits unparseable;
the low column's median over its coercible values is 3 and the high
column's is 9, and row 0's width is 9 - 3 computed from the two imputed
medians. -/
theorem confidenceWidth_imputed_witness :
    (confidenceWidth [RawVal.vstr "x", RawVal.vstr "1", RawVal.vstr "3", RawVal.vstr "5"]
        [RawVal.vstr "y", RawVal.vstr "7", RawVal.vstr "9", RawVal.vstr "11"]).getD 0 none =
      some ((9 : ℚ) - 3) := by
  have h := confidenceWidth_imputed
    [RawVal.vstr "x", RawVal.vstr "1", RawVal.vstr "3", RawVal.vstr "5"]
    [RawVal.vstr "y", RawVal.vstr "7", RawVal.vstr "9", RawVal.vstr "11"]
    0 3 9 (by decide) (by decide) (by decide) (by decide)
  rw [show parseNumeric (([RawVal.vstr "y", RawVal.vstr "7", RawVal.vstr "9",
        RawVal.vstr "11"] : List RawVal).getD 0 RawVal.vmissing) = none from by decide,
    show parseNumeric (([RawVal.vstr "x", RawVal.vstr "1", RawVal.vstr "3",
        RawVal.vstr "5"] : List RawVal).getD 0 RawVal.vmissing) = none from by decide] at h
  simpa using h

/-- A stored document of a raw collection, abstracted to the fields the
metadata claims depend on: the `is_metadata` flag (`false` embeds a data
document, where the field is absent) and an abstract payload. -/
structure MDoc where
  isMeta : Bool
  payload : ℕ
deriving DecidableEq, Repr

/-- The metadata document: stored with `is_metadata: True`
(`1_data_ingestion.py` lines 70-84 and 164-176). -/
def metadataDoc : MDoc := ⟨true, 0⟩

/-- A raw collection as built by ingestion: one metadata document plus
the data documents (which carry no `is_metadata` field). -/
def mkRawCollection (rows : List ℕ) : List MDoc :=
  metadataDoc :: rows.map (fun r => ⟨false, r⟩)

/-- `db[col].count_documents({})` — the unfiltered count used by the
ingestion summary (line 197) and the cleaning summary (line 261). -/
def countDocumentsAll (c : List MDoc) : ℕ := c.length

/-- `collection.find({"is_metadata": {"$ne": True}})` — the filtered row
iteration used when cleaning loads a raw collection (`2_data_cleaning.py`
lines 44 and 145); documents lacking the field also match `$ne`. -/
def findDataDocs (c : List MDoc) : List MDoc :=
  c.filter (fun d => !d.isMeta)

/-- C3: the claim as stated — the metadata document is excluded from
every downstream row-count operation.  This is FALSE: the summary counts
use `count_documents({})`, which counts the metadata document too, as
this one-data-row collection shows. -/
theorem metadata_count_cex :
    metadataDoc.isMeta = true ∧
      countDocumentsAll (mkRawCollection [7]) ≠ (findDataDocs (mkRawCollection [7])).length := by
  decide

/-- C3 (amended): the metadata document is stored with `is_metadata:
true` and is excluded from every row-iteration (data-loading) operation —
cleaning's `find` filter returns exactly the data documents — but the
per-collection document counts printed by the ingestion and cleaning
summaries use an unfiltered `count_documents({})` that includes it
(data rows + 1). -/
theorem metadata_excluded_from_find (rows : List ℕ) :
    metadataDoc.isMeta = true ∧
      findDataDocs (mkRawCollection rows) = rows.map (fun r => ⟨false, r⟩) ∧
      countDocumentsAll (mkRawCollection rows) = rows.length + 1 := by
  refine ⟨rfl, ?_, ?_⟩
  · simp only [findDataDocs, mkRawCollection, metadataDoc, List.filter_cons,
      Bool.not_true, List.filter_map, Function.comp]
    rw [List.filter_eq_self.2 (by intro a _; rfl)]
    simp
  · simp [countDocumentsAll, mkRawCollection]

/-- `df['_record_id'] = range(1, len(df) + 1)` (`2_data_cleaning.py`
lines 119 and 233): pair each cleaned row with its 1-based id. -/
def assignRecordIds {α : Type} (rows : List α) : List (α × ℕ) :=
  rows.zip (List.range' 1 rows.length)

/-- The `_record_id` column of a cleaned collection. -/
def recordIdColumn {α : Type} (rows : List α) : List ℕ :=
  (assignRecordIds rows).map Prod.snd

/-- C5: within one cleaning run, `_record_id` over a cleaned collection
of N rows is exactly the sequence 1, 2, ..., N in row order — the i-th
row gets id i+1 — with no duplicates, and a value k occurs iff
1 ≤ k ≤ N (dense, no gaps). -/
theorem recordId_dense {α : Type} (rows : List α) :
    recordIdColumn rows = List.range' 1 rows.length ∧
      (recordIdColumn rows).Nodup ∧
      ∀ k : ℕ, k ∈ recordIdColumn rows ↔ 1 ≤ k ∧ k ≤ rows.length := by
  have h1 : recordIdColumn rows = List.range' 1 rows.length :=
    List.map_snd_zip _ _ (by simp)
  refine ⟨h1, ?_, ?_⟩
  · rw [h1]; simp [List.nodup_range']
  · intro k
    rw [h1, List.mem_range'_1]
    omega

/-- The record cap configured at `1_data_ingestion.py` line 19. -/
def SAMPLE_SIZE : ℕ := 2500

/-- The EV sampling branch (`1_data_ingestion.py` lines 90-95): when the
fetched rows exceed the cap, store the random sample, otherwise store all
rows; `sampled` stands for the outcome of `random.sample(rows,
SAMPLE_SIZE)`. -/
def evStoredRows {α : Type} (rows sampled : List α) : List α :=
  if SAMPLE_SIZE < rows.length then sampled else rows

/-- C6: when the source has fewer rows than the cap all rows are stored
unsampled; when it has more, exactly `SAMPLE_SIZE` rows are stored, all
drawn (without replacement) from the source rows.  The hypotheses are the
contract of `random.sample`: it returns `SAMPLE_SIZE` distinct elements
of the population, here stated as a sub-permutation. -/
theorem evStoredRows_spec (rows sampled : List ℕ)
    (hsub : sampled.Subperm rows) (hlen : sampled.length = SAMPLE_SIZE) :
    (rows.length < SAMPLE_SIZE → evStoredRows rows sampled = rows) ∧
      (SAMPLE_SIZE < rows.length →
        (evStoredRows rows sampled).length = SAMPLE_SIZE ∧
          (evStoredRows rows sampled).Subperm rows) := by
  constructor
  · intro hlt
    rw [evStoredRows, if_neg (by omega)]
  · intro hgt
    rw [evStoredRows, if_pos hgt]
    exact ⟨hlen, hsub⟩

/-- C6 witness: a source of 2501 rows with a drawn sample of 2500
distinct rows stores exactly the cap. -/
theorem evStoredRows_spec_witness :
    ((List.range 2501).length < SAMPLE_SIZE →
        evStoredRows (List.range 2501) (List.range 2500) = List.range 2501) ∧
      (SAMPLE_SIZE < (List.range 2501).length →
        (evStoredRows (List.range 2501) (List.range 2500)).length = SAMPLE_SIZE ∧
          (evStoredRows (List.range 2501) (List.range 2500)).Subperm (List.range 2501)) :=
  evStoredRows_spec (List.range 2501) (List.range 2500)
    ((List.range_sublist.2 (by norm_num)).subperm) (by simp [SAMPLE_SIZE])

/-- What the body of one dataset's fetch-and-store block does: completes
normally or raises an exception. -/
inductive BlockOutcome where
  | ok
  | raised (msg : String)
deriving DecidableEq, Repr

/-- A top-level statement of an ingestion script: a block wrapped in
`try/except Exception` (which catches and logs any raise) or a bare
statement. -/
inductive ScriptStmt where
  | guarded (b : BlockOutcome)
  | unguarded (b : BlockOutcome)
deriving DecidableEq, Repr

/-- Run a script top to bottom: a guarded block always completes (its
exception is caught and logged) and control continues; an unguarded raise
aborts the remainder.  Returns, per statement, whether it executed. -/
def execStmts : List ScriptStmt → List Bool
  | [] => []
  | ScriptStmt.guarded _ :: rest => true :: execStmts rest
  | ScriptStmt.unguarded BlockOutcome.ok :: rest => true :: execStmts rest
  | ScriptStmt.unguarded (BlockOutcome.raised _) :: rest => true :: rest.map (fun _ => false)

/-- The shape of `1_data_ingestion.py`: the EV block (lines 47-125) and
the nutrition block (lines 136-186), each wrapped in its own
`try/except RequestException / except Exception`. -/
def ingestionScript (ev nut : BlockOutcome) : List ScriptStmt :=
  [ScriptStmt.guarded ev, ScriptStmt.guarded nut]

/-- C7: whatever each dataset's block does — success or any raised
exception — both blocks of the ingestion script execute: a failure in one
dataset never aborts the other. -/
theorem ingestion_blocks_independent (ev nut : BlockOutcome) :
    execStmts (ingestionScript ev nut) = [true, true] := by
  cases ev <;> cases nut <;> rfl

/-- A value stored in an EV raw document: one of the three internal
provenance fields set before the mapping loop, or a cell value copied
from the source row. -/
inductive DocVal where
  | importedAt
  | datasetName
  | sourceTag
  | cell (v : RawVal)
deriving DecidableEq, Repr

/-- Python `dict` assignment `doc[k] = v`: replace the value of an
existing key in place, otherwise append the new key at the end. -/
def dictInsert (d : List (String × DocVal)) (k : String) (v : DocVal) :
    List (String × DocVal) :=
  if d.any (fun p => p.1 = k) then d.map (fun p => if p.1 = k then (k, v) else p)
  else d ++ [(k, v)]

/-- The document as initialized before the mapping loop
(`1_data_ingestion.py` lines 100-104). -/
def initialDoc : List (String × DocVal) :=
  [("_imported_at", DocVal.importedAt), ("_dataset_name", DocVal.datasetName),
    ("_source", DocVal.sourceTag)]

/-- The loop `for idx, value in enumerate(row): if idx < len(column_names):
doc[column_names[idx]] = value` (`1_data_ingestion.py` lines 107-109),
with `i` the index of the first remaining row value. -/
def insertCells (cols : List String) :
    List (String × DocVal) → ℕ → List RawVal → List (String × DocVal)
  | d, _, [] => d
  | d, i, v :: rest =>
      insertCells cols
        (if i < cols.length then dictInsert d (cols.getD i "") (DocVal.cell v) else d)
        (i + 1) rest

/-- One EV raw document: internal fields then the in-range row values. -/
def rowToDoc (cols : List String) (row : List RawVal) : List (String × DocVal) :=
  insertCells cols initialDoc 0 row

lemma mem_dictInsert (d : List (String × DocVal)) (k : String) (v : DocVal)
    (p : String × DocVal) (hp : p ∈ dictInsert d k v) : p ∈ d ∨ p = (k, v) := by
  unfold dictInsert at hp
  split at hp
  · rcases List.mem_map.1 hp with ⟨q, hq, hqe⟩
    by_cases h1 : q.1 = k
    · right; rw [← hqe]; simp [h1]
    · left; rw [← hqe]; simp only [if_neg h1]; exact hq
  · rcases List.mem_append.1 hp with h | h
    · exact Or.inl h
    · right; simpa using h

lemma keys_dictInsert (d : List (String × DocVal)) (k : String) (v : DocVal)
    (k' : String) (h : k' ∈ d.map Prod.fst) : k' ∈ (dictInsert d k v).map Prod.fst := by
  unfold dictInsert
  split
  · rw [List.map_map]
    have : d.map (Prod.fst ∘ fun p => if p.1 = k then (k, v) else p) = d.map Prod.fst := by
      apply List.map_congr_left
      intro q _
      by_cases h1 : q.1 = k <;> simp [h1, Function.comp]
    rw [this]; exact h
  · rw [List.map_append]
    exact List.mem_append.2 (Or.inl h)

lemma mem_insertCells (cols : List String) (rest : List RawVal) :
    ∀ (d : List (String × DocVal)) (i : ℕ) (p : String × DocVal),
      p ∈ insertCells cols d i rest →
        p ∈ d ∨ ∃ j, j < rest.length ∧ i + j < cols.length ∧
          p = (cols.getD (i + j) "", DocVal.cell (rest.getD j RawVal.vmissing)) := by
  induction rest with
  | nil => intro d i p hp; exact Or.inl hp
  | cons v tail ih =>
      intro d i p hp
      rcases ih _ (i + 1) p hp with hd | ⟨j, hj1, hj2, hj3⟩
      · by_cases hi : i < cols.length
        · rw [if_pos hi] at hd
          rcases mem_dictInsert _ _ _ _ hd with h | h
          · exact Or.inl h
          · exact Or.inr ⟨0, by simp, by simpa using hi, by simpa using h⟩
        · rw [if_neg hi] at hd
          exact Or.inl hd
      · refine Or.inr ⟨j + 1, by simpa using hj1, by omega, ?_⟩
        have : i + (j + 1) = i + 1 + j := by omega
        rw [this]
        simpa using hj3

lemma keys_insertCells (cols : List String) (rest : List RawVal) :
    ∀ (d : List (String × DocVal)) (i : ℕ) (k : String),
      k ∈ d.map Prod.fst → k ∈ (insertCells cols d i rest).map Prod.fst := by
  induction rest with
  | nil => intro d i k hk; exact hk
  | cons v tail ih =>
      intro d i k hk
      apply ih _ (i + 1)
      by_cases hi : i < cols.length
      · rw [if_pos hi]; exact keys_dictInsert _ _ _ _ hk
      · rw [if_neg hi]; exact hk

/-- C8: every entry of an EV raw document is either one of the three
internal provenance fields or the value at a row position whose index is
smaller than both the row length and the column-name count, keyed by that
column name — so a row value at a position at or beyond the column-name
count never appears; and the three internal field names are all present
as keys of the document. -/
theorem rowToDoc_entries (cols : List String) (row : List RawVal)
    (p : String × DocVal) (hp : p ∈ rowToDoc cols row) :
    (p ∈ initialDoc ∨ ∃ j, j < row.length ∧ j < cols.length ∧
        p = (cols.getD j "", DocVal.cell (row.getD j RawVal.vmissing))) ∧
      ∀ k ∈ initialDoc.map Prod.fst, k ∈ (rowToDoc cols row).map Prod.fst := by
  constructor
  · rcases mem_insertCells cols row initialDoc 0 p hp with h | ⟨j, hj1, hj2, hj3⟩
    · exact Or.inl h
    · exact Or.inr ⟨j, hj1, by simpa using hj2, by simpa using hj3⟩
  · intro k hk
    exact keys_insertCells cols row initialDoc 0 k hk

/-- C8 witness: with one column name and a two-value row, the entry for
the first value is in the document, falls under the in-range case, and
the internal keys are present; the second value is dropped. -/
theorem rowToDoc_entries_witness :
    (("a", DocVal.cell (RawVal.vstr "x")) ∈ initialDoc ∨
        ∃ j, j < ([RawVal.vstr "x", RawVal.vstr "y"] : List RawVal).length ∧
          j < (["a"] : List String).length ∧
          ("a", DocVal.cell (RawVal.vstr "x")) =
            ((["a"] : List String).getD j "",
              DocVal.cell (([RawVal.vstr "x", RawVal.vstr "y"] : List RawVal).getD j RawVal.vmissing))) ∧
      ∀ k ∈ initialDoc.map Prod.fst,
        k ∈ (rowToDoc ["a"] [RawVal.vstr "x", RawVal.vstr "y"]).map Prod.fst :=
  rowToDoc_entries ["a"] [RawVal.vstr "x", RawVal.vstr "y"]
    ("a", DocVal.cell (RawVal.vstr "x")) (by decide)

/-- Exit status of the Python `exit(arg)` builtin: it raises
`SystemExit(arg)`, and the interpreter maps `None` to process status 0
and an integer argument to that integer. -/
def pyExitStatus : Option Int → Int
  | none => 0
  | some n => n

/-- Process exit code of one pipeline stage as a function of the
connectivity check: on ping success the script runs to completion and
exits 0; on ping failure it prints the error and calls bare `exit()`
(`1_data_ingestion.py` line 33, `2_data_cleaning.py` line 27,
`3_data_analysis.py` line 33, `4_visualizations.py` line 33). -/
def stageExitCode (pingOk : Bool) : Int :=
  if pingOk then 0 else pyExitStatus none

/-- C10: every stage exits with status 0 whether the connectivity check
succeeds or fails — the bare `exit()` on failure yields the same exit
code as successful completion, so the two are indistinguishable by exit
code. -/
theorem stageExitCode_always_zero (pingOk : Bool) :
    stageExitCode pingOk = 0 ∧ stageExitCode false = stageExitCode true := by
  cases pingOk <;> exact ⟨rfl, rfl⟩

end DataVizSDG
